import Mathlib

/-!
Verification development for the Cityscape_Analysis repository.

The definitions below are a shallow embedding of the batch visual-analysis
pipeline of the repository:

* `calculate_green_view_rate` embeds
  `GreenViewAnalyzer.calculate_green_view_rate` (modules/image_processing.py);
  a segmentation map is modelled as the flattened list of its per-pixel class
  ids (the function only uses the element count and per-class counts), and the
  floating-point arithmetic of the source is modelled over the rationals.
* `analyze_image` and `analyze_batch` embed `GreenViewAnalyzer.analyze_image`
  and `GreenViewAnalyzer.analyze_batch`; segmentation inference
  (`segment_image`, an external model call) is a parameter
  `seg : String → Except String SegMap` giving, per image path, either the
  segmentation map or the raised error message.  `analyze_batch` returns a
  trace: the accumulated result list, every progress-callback invocation, the
  indices at which the segmentation engine was invoked, and the indices after
  which the deep cleanup pass (the body of the `(i + 1) % 5 == 0` branch) ran.
* `run_analyze_task` embeds `WorkerThread._run_analyze_task` together with
  `WorkerThread.cancel` (modules/gui_interface.py): the cancellation flag is
  modelled by the item count `cancelAfter` after which `is_cancelled` is set;
  the progress-callback body and the final emissions are guarded by the flag
  exactly as in the source, and nothing inside `analyze_batch` reads the flag.
* `_get_device` embeds `GreenViewAnalyzer._get_device`; the availability of
  CUDA and the outcome of the tensor smoke test are the fields of `AccelEnv`.
* `add_result`, `add_batch_results`, `green_rates`,
  `calculate_summary_statistics` embed the corresponding methods of
  `ResultExporter` (modules/result_export.py); the `pandas` statistics are
  modelled over the rationals (standard deviation by its square, the sample
  variance), and the path-munging helper `_get_comprehensive_analysis_path`
  (pure string/OS-path formatting, irrelevant to every claim) is an abstract
  parameter.
-/

namespace Cityscape

/-- Flattened per-pixel class-id map (`segmentation_map` in the source). -/
abbrev SegMap := List Nat

/-- Embedding of `GreenViewAnalyzer.CITYSCAPES_CLASSES`. -/
def CITYSCAPES_CLASSES : List (Nat × String) :=
  [(0, "road"), (1, "sidewalk"), (2, "building"), (3, "wall"), (4, "fence"),
   (5, "pole"), (6, "traffic_light"), (7, "traffic_sign"), (8, "vegetation"),
   (9, "terrain"), (10, "sky"), (11, "person"), (12, "rider"), (13, "car"),
   (14, "truck"), (15, "bus"), (16, "train"), (17, "motorcycle"), (18, "bicycle")]

/-- Embedding of `GreenViewAnalyzer.VEGETATION_CLASS_ID`. -/
def VEGETATION_CLASS_ID : Nat := 8

/-- Embedding of the name lookup with default: `self.CITYSCAPES_CLASSES.get`
falling back to the string `class_` followed by the class id. -/
def classNameOf (c : Nat) : String :=
  ((CITYSCAPES_CLASSES.lookup c).getD ("class_" ++ toString c))

/-- Embedding of `np.sum(segmentation_map == class_id)`. -/
def countClass (m : SegMap) (c : Nat) : Nat := m.count c

/-- One entry of the `class_distribution` dictionary (keyed by class name in
the source; the class id that generated the entry is kept alongside). -/
structure ClassEntry where
  classId : Nat
  className : String
  pixels : Nat
  percentage : Rat
deriving DecidableEq

/-- Return value of `calculate_green_view_rate`. -/
structure GreenViewResult where
  green_view_rate : Rat
  vegetation_pixels : Nat
  total_pixels : Nat
  class_distribution : List ClassEntry
deriving DecidableEq

/-- Distribution entry for one class id: `if count > 0:` add
`{pixels, percentage}` to `class_counts`, else nothing. -/
def distEntry (m : SegMap) (total : Nat) (c : Nat) : Option ClassEntry :=
  let cnt := countClass m c
  if cnt > 0 then
    some { classId := c, className := classNameOf c, pixels := cnt,
           percentage := ((cnt : Rat) / (total : Rat)) * 100 }
  else none

/-- Embedding of the `class_distribution` loop of `calculate_green_view_rate`:
`for class_id in range(len(CITYSCAPES_CLASSES)): if count > 0: add entry`. -/
def classDistribution (m : SegMap) (total : Nat) : List ClassEntry :=
  (List.range CITYSCAPES_CLASSES.length).filterMap (distEntry m total)

/-- Embedding of `GreenViewAnalyzer.calculate_green_view_rate`. -/
def calculate_green_view_rate (m : SegMap) : GreenViewResult :=
  let total := m.length
  let veg := countClass m VEGETATION_CLASS_ID
  { green_view_rate := ((veg : Rat) / (total : Rat)) * 100
    vegetation_pixels := veg
    total_pixels := total
    class_distribution := classDistribution m total }

/-- Success dictionary returned by `GreenViewAnalyzer.analyze_image`: the
metric fields of `calculate_green_view_rate` updated with the path keys and
with the retained `segmentation_map` (the source comment marks the retention
as deliberate, for the later comprehensive-analysis image). -/
structure AnalysisResult where
  green_view_rate : Rat
  vegetation_pixels : Nat
  total_pixels : Nat
  class_distribution : List ClassEntry
  image_path : String
  original_image_path : String
  segmentation_map : Option SegMap
deriving DecidableEq

/-- Embedding of `GreenViewAnalyzer.analyze_image`; the segmentation call
(`segment_image`, the external model inference) is the parameter `seg`, and a
raised exception is the `Except.error` case.  The `original_image` object is
dropped (`del original_image`), the segmentation map is kept in the result. -/
def analyze_image (seg : String → Except String SegMap) (image_path : String) :
    Except String AnalysisResult :=
  match seg image_path with
  | .error e => .error e
  | .ok sm =>
    let r := calculate_green_view_rate sm
    .ok { green_view_rate := r.green_view_rate
          vegetation_pixels := r.vegetation_pixels
          total_pixels := r.total_pixels
          class_distribution := r.class_distribution
          image_path := image_path
          original_image_path := image_path
          segmentation_map := some sm }

/-- One element of the list returned by `analyze_batch`: either the success
dictionary of `analyze_image`, or the error dictionary
`{original_image_path, error, green_view_rate: 0.0}` built in the
`except` branch. -/
inductive Record where
  | success (r : AnalysisResult)
  | failure (original_image_path : String) (error : String) (green_view_rate : Rat)
deriving DecidableEq

/-- Source-path field of a record (`original_image_path` in both branches). -/
def Record.source : Record → String
  | .success r => r.original_image_path
  | .failure p _ _ => p

/-- True on the error dictionaries of `analyze_batch`. -/
def Record.isFailure : Record → Bool
  | .success _ => false
  | .failure _ _ _ => true

/-- Retained segmentation map of a record, when any. -/
def Record.segMap : Record → Option SegMap
  | .success r => r.segmentation_map
  | .failure _ _ _ => none

/-- Observable trace of one `analyze_batch` run: the accumulated `results`
list, every `progress_callback(i + 1, total, result)` invocation, the indices
at which `analyze_image` (hence the segmentation engine) was invoked, and the
indices `i` after which the deep-cleanup branch `(i + 1) % 5 == 0` ran. -/
structure BatchTrace where
  results : List Record
  progressCalls : List (Nat × Nat × Record)
  invoked : List Nat
  deepCleanups : List Nat
deriving DecidableEq

/-- Loop body of `GreenViewAnalyzer.analyze_batch` for item `(i, image_path)`:
`analyze_image` is attempted; on success the result is appended, the callback
fires and the deep cleanup runs when `(i + 1) % 5 == 0`; on an exception the
error dictionary is appended and the callback fires — the deep-cleanup branch
sits inside the `try`, so it is skipped for a failed item. -/
def batchStep (seg : String → Except String SegMap) (total : Nat)
    (st : BatchTrace) (item : Nat × String) : BatchTrace :=
  let i := item.1
  let image_path := item.2
  match analyze_image seg image_path with
  | .ok result =>
    { results := st.results ++ [.success result]
      progressCalls := st.progressCalls ++ [(i + 1, total, .success result)]
      invoked := st.invoked ++ [i]
      deepCleanups :=
        if (i + 1) % 5 == 0 then st.deepCleanups ++ [i] else st.deepCleanups }
  | .error e =>
    { results := st.results ++ [.failure image_path e 0]
      progressCalls := st.progressCalls ++ [(i + 1, total, .failure image_path e 0)]
      invoked := st.invoked ++ [i]
      deepCleanups := st.deepCleanups }

/-- Embedding of `GreenViewAnalyzer.analyze_batch`: a fold of `batchStep`
over the enumerated path list.  Nothing in the loop consults any cancellation
flag, and no exception escapes the loop (the function is total). -/
def analyze_batch (seg : String → Except String SegMap)
    (image_paths : List String) : BatchTrace :=
  (image_paths.enum).foldl (batchStep seg image_paths.length)
    { results := [], progressCalls := [], invoked := [], deepCleanups := [] }

/-- Record produced for a single path; `analyze_batch` is proved below to map
this over its input. -/
def mkRecord (seg : String → Except String SegMap) (image_path : String) : Record :=
  match analyze_image seg image_path with
  | .ok r => .success r
  | .error e => .failure image_path e 0

/-- Observable trace of `WorkerThread._run_analyze_task`: the internal record
list of `analyze_batch`, the `progress_updated` signals actually emitted (the
callback body is guarded by `if not self.is_cancelled`), whether the final
`analysis_results_ready`/`task_completed` signals were emitted (same guard
after `analyze_batch` returns), and the segmentation-engine invocations. -/
structure WorkerTrace where
  records : List Record
  progressSignals : List Nat
  resultsEmitted : Bool
  segInvocations : List Nat
deriving DecidableEq

/-- Embedding of `WorkerThread._run_analyze_task` combined with
`WorkerThread.cancel`: `cancelAfter` is the number of items after whose
completion (and progress callback) the flag `is_cancelled` is set, so the
callback for item `current` sees the flag exactly when `current > cancelAfter`,
and the final emissions see it exactly when the run has more items than
`cancelAfter`.  The flag is never read inside `analyze_batch`. -/
def run_analyze_task (seg : String → Except String SegMap)
    (image_paths : List String) (cancelAfter : Nat) : WorkerTrace :=
  let st := analyze_batch seg image_paths
  { records := st.results
    progressSignals :=
      (st.progressCalls.map fun c => c.1).filter fun current =>
        decide (current ≤ cancelAfter)
    resultsEmitted := decide (image_paths.length ≤ cancelAfter)
    segInvocations := st.invoked }

/-- Accelerator environment for `_get_device`: whether
`torch.cuda.is_available()` returns true, and whether the tensor
allocation-plus-operation smoke test completes without raising. -/
structure AccelEnv where
  cudaAvailable : Bool
  smokeTestOk : Bool
deriving DecidableEq

/-- Embedding of `GreenViewAnalyzer._get_device`.  The argument mirrors the
`Optional[str]` parameter: `none` and `some "auto"` take the auto-detection
branch, `some "cuda"` takes the forced-accelerator validation branch, any
other string is returned unchanged.  Every branch returns normally. -/
def _get_device (device : Option String) (env : AccelEnv) : String :=
  if device = some "auto" ∨ device = none then
    if env.cudaAvailable then
      if env.smokeTestOk then "cuda" else "cpu"
    else "cpu"
  else if device = some "cuda" then
    if env.cudaAvailable then
      if env.smokeTestOk then "cuda" else "cpu"
    else "cpu"
  else device.getD ""

/-- One element of the `download_results` list consumed by
`ResultExporter.add_result` (the fields the method reads with `.get`). -/
structure DownloadResult where
  lng : Rat
  lat : Rat
  success : Bool
  download_time : String
  filepath : String
  error : String
  file_size : Nat
deriving DecidableEq

instance : Inhabited DownloadResult :=
  ⟨{ lng := 0, lat := 0, success := false, download_time := "",
     filepath := "", error := "", file_size := 0 }⟩

instance : Inhabited Record := ⟨.failure "" "" 0⟩

/-- Embedding of the `green_view_rate` lookup (`.get` with default 0.0) on the
dictionaries produced by `analyze_batch` (the error dictionary does carry the
key, with value `0.0`). -/
def Record.rate : Record → Rat
  | .success r => r.green_view_rate
  | .failure _ _ g => g

/-- Embedding of the `vegetation_pixels` lookup (`.get` with default 0). -/
def Record.veg : Record → Nat
  | .success r => r.vegetation_pixels
  | .failure _ _ _ => 0

/-- Embedding of the `total_pixels` lookup (`.get` with default 0). -/
def Record.total : Record → Nat
  | .success r => r.total_pixels
  | .failure _ _ _ => 0

/-- Embedding of the `error` lookup (`.get` with the empty-string default). -/
def Record.errorMsg : Record → String
  | .success _ => ""
  | .failure _ e _ => e

/-- Embedding of the `class_distribution` lookup (`.get` with empty default). -/
def Record.distribution : Record → List ClassEntry
  | .success r => r.class_distribution
  | .failure _ _ _ => []

/-- Combined row built by `ResultExporter.add_result`; the dynamic per-class
columns are gathered in `class_columns` as (name, percentage, pixel count). -/
structure CombinedResult where
  longitude : Rat
  latitude : Rat
  download_success : Bool
  download_time : String
  original_image_path : String
  comprehensive_analysis_path : String
  green_view_rate : Rat
  vegetation_pixels : Nat
  total_pixels : Nat
  download_error : String
  analysis_error : String
  file_size_bytes : Nat
  class_columns : List (String × Rat × Nat)
deriving DecidableEq

/-- Embedding of `ResultExporter.add_result` for one pair of dictionaries.
The helper `_get_comprehensive_analysis_path` (pure OS-path string
formatting, read by no claim) is the abstract parameter `cpath`. -/
def add_result (cpath : String → Record → String)
    (download_result : DownloadResult) (analysis_result : Record) : CombinedResult :=
  { longitude := download_result.lng
    latitude := download_result.lat
    download_success := download_result.success
    download_time := download_result.download_time
    original_image_path := download_result.filepath
    comprehensive_analysis_path := cpath download_result.filepath analysis_result
    green_view_rate := analysis_result.rate
    vegetation_pixels := analysis_result.veg
    total_pixels := analysis_result.total
    download_error := download_result.error
    analysis_error := analysis_result.errorMsg
    file_size_bytes := download_result.file_size
    class_columns := analysis_result.distribution.map fun e =>
      (e.className, e.percentage, e.pixels) }

/-- Embedding of `ResultExporter.add_batch_results`:
`min_length = min(len(download_results), len(analysis_results))`, then
`add_result(download_results[i], analysis_results[i])` for
`i in range(min_length)`, appending to the accumulated `results_data`. -/
def add_batch_results (cpath : String → Record → String)
    (results_data : List CombinedResult)
    (download_results : List DownloadResult)
    (analysis_results : List Record) : List CombinedResult :=
  (List.range (min download_results.length analysis_results.length)).foldl
    (fun acc i => acc ++ [add_result cpath download_results[i]! analysis_results[i]!])
    results_data

/-- Embedding of the rate column filtered on `green_view_rate > 0` in
`calculate_summary_statistics`: the rates of the rows whose rate is positive,
in row order. -/
def green_rates (rows : List CombinedResult) : List Rat :=
  (rows.filter fun r => decide (0 < r.green_view_rate)).map fun r =>
    r.green_view_rate

/-- Embedding of `successful_analyses`: the row count of the data frame
filtered on `green_view_rate > 0`. -/
def successful_analyses (rows : List CombinedResult) : Nat :=
  (rows.filter fun r => decide (0 < r.green_view_rate)).length

/-- Sorted copy of a rate list (the order `pandas` statistics work over). -/
def sortRates (l : List Rat) : List Rat :=
  l.insertionSort (· ≤ ·)

/-- Embedding of `Series.mean()` over the rationals. -/
def rateMean (l : List Rat) : Rat := l.sum / (l.length : Rat)

/-- Embedding of `Series.median()`: middle element of the sorted values for
odd length, average of the two middle elements for even length. -/
def rateMedian (l : List Rat) : Rat :=
  let s := sortRates l
  if l.length % 2 = 1 then s.getD (l.length / 2) 0
  else (s.getD (l.length / 2 - 1) 0 + s.getD (l.length / 2) 0) / 2

/-- Square of `Series.std()` (sample variance, `ddof = 1`), kept squared so
the statistic stays rational. -/
def rateVariance (l : List Rat) : Rat :=
  ((l.map fun x => (x - rateMean l) ^ 2).sum) / ((l.length : Rat) - 1)

/-- Embedding of `Series.quantile(q)` with the default linear interpolation:
position `q * (n - 1)` in the sorted values, interpolating between the two
neighbouring values. -/
def rateQuantile (q : Rat) (l : List Rat) : Rat :=
  let s := sortRates l
  let pos : Rat := q * ((l.length : Rat) - 1)
  let i : Nat := (Int.floor pos).toNat
  let frac : Rat := pos - (i : Rat)
  if i + 1 < l.length then s.getD i 0 + frac * (s.getD (i + 1) 0 - s.getD i 0)
  else s.getD i 0

/-- Embedding of `Series.min()` / `Series.max()` via the sorted values. -/
def rateMin (l : List Rat) : Rat := (sortRates l).headD 0

/-- Largest value of a nonempty rate list. -/
def rateMax (l : List Rat) : Rat := (sortRates l).getLastD 0

/-- Rate statistics block of `calculate_summary_statistics` (the keys
`green_view_rate_mean` … `green_view_rate_q75`), added only when
`len(green_rates) > 0`. -/
structure RateStats where
  mean : Rat
  median : Rat
  std_sq : Rat
  rate_min : Rat
  rate_max : Rat
  q25 : Rat
  q75 : Rat
deriving DecidableEq

/-- Embedding of the conditional rate-statistics block. -/
def calculate_rate_stats (rows : List CombinedResult) : Option RateStats :=
  let gr := green_rates rows
  if gr.length > 0 then
    some { mean := rateMean gr
           median := rateMedian gr
           std_sq := rateVariance gr
           rate_min := rateMin gr
           rate_max := rateMax gr
           q25 := rateQuantile (1 / 4) gr
           q75 := rateQuantile (3 / 4) gr }
  else none

/-- Bucket counts of the `green_view_distribution` block. -/
structure RateDistribution where
  very_low : Nat
  low : Nat
  medium : Nat
  high : Nat
  very_high : Nat
deriving DecidableEq

/-- Embedding of the `green_view_distribution` block, added only when
`len(green_rates) > 0`: counts of `green_rates` in `[0,10)`, `[10,20)`,
`[20,30)`, `[30,40)` and `[40, ∞)`. -/
def green_view_distribution (rows : List CombinedResult) : Option RateDistribution :=
  let gr := green_rates rows
  if gr.length > 0 then
    some { very_low := (gr.filter fun r => decide (0 ≤ r) && decide (r < 10)).length
           low := (gr.filter fun r => decide (10 ≤ r) && decide (r < 20)).length
           medium := (gr.filter fun r => decide (20 ≤ r) && decide (r < 30)).length
           high := (gr.filter fun r => decide (30 ≤ r) && decide (r < 40)).length
           very_high := (gr.filter fun r => decide (40 ≤ r)).length }
  else none

/-- Return value of `ResultExporter.calculate_summary_statistics` (the fields
every claim reads; the download-success ratios are straightforward counts over
the same rows). -/
structure SummaryStats where
  total_images : Nat
  successful_downloads : Nat
  successful_analyses_count : Nat
  rate_stats : Option RateStats
  distribution : Option RateDistribution
deriving DecidableEq

/-- Embedding of `ResultExporter.calculate_summary_statistics`. -/
def calculate_summary_statistics (rows : List CombinedResult) : SummaryStats :=
  { total_images := rows.length
    successful_downloads := (rows.filter fun r => r.download_success).length
    successful_analyses_count := successful_analyses rows
    rate_stats := calculate_rate_stats rows
    distribution := green_view_distribution rows }

/-! ### Supporting lemmas -/

theorem countClass_le_length (m : SegMap) (c : Nat) : countClass m c ≤ m.length :=
  List.count_le_length c m

theorem green_view_rate_eq (m : SegMap) :
    (calculate_green_view_rate m).green_view_rate =
      ((countClass m VEGETATION_CLASS_ID : Rat) / (m.length : Rat)) * 100 := rfl

/-! ### C1 -/

/-- C1.  For every (nonempty) label grid, `calculate_green_view_rate` returns
a rate exactly equal to `100 * vegetation_pixel_count / total_pixel_count`,
with the rate in `[0, 100]` and `vegetation_pixel_count ≤ total_pixel_count`;
the total is the cell count of the grid and the vegetation count is the
number of cells equal to the vegetation class id 8.  (A label grid always has
at least one cell: it has the spatial shape of its source image; the
nonemptiness hypothesis records that, since the source would divide by zero
otherwise.)  Arithmetic is modelled over the rationals. -/
theorem C1_green_view_rate_exact_and_bounded (m : SegMap) (h : 0 < m.length) :
    (calculate_green_view_rate m).total_pixels = m.length ∧
    (calculate_green_view_rate m).vegetation_pixels = countClass m VEGETATION_CLASS_ID ∧
    (calculate_green_view_rate m).green_view_rate =
      100 * ((calculate_green_view_rate m).vegetation_pixels : Rat) /
        ((calculate_green_view_rate m).total_pixels : Rat) ∧
    0 ≤ (calculate_green_view_rate m).green_view_rate ∧
    (calculate_green_view_rate m).green_view_rate ≤ 100 ∧
    (calculate_green_view_rate m).vegetation_pixels ≤
      (calculate_green_view_rate m).total_pixels := by
  have hveg : countClass m VEGETATION_CLASS_ID ≤ m.length := countClass_le_length m _
  have hlen : (0 : Rat) < (m.length : Rat) := by exact_mod_cast h
  refine ⟨rfl, rfl, ?_, ?_, ?_, hveg⟩
  · rw [green_view_rate_eq]
    show _ = 100 * ((countClass m VEGETATION_CLASS_ID : Rat)) / ((m.length : Rat))
    ring
  · rw [green_view_rate_eq]
    positivity
  · rw [green_view_rate_eq]
    have hd : ((countClass m VEGETATION_CLASS_ID : Rat) / (m.length : Rat)) ≤ 1 := by
      rw [div_le_one hlen]
      exact_mod_cast hveg
    nlinarith [hd]

/-- Concrete witness for C1: the 100-cell grid with 25 vegetation cells. -/
def grid1 : SegMap := List.replicate 25 8 ++ List.replicate 75 0

/-- Witness for C1 at `grid1`: the hypothesis holds and the conclusion
evaluates as expected (rate 25, vegetation 25 of 100). -/
theorem C1_witness :
    0 < grid1.length ∧
    ((calculate_green_view_rate grid1).total_pixels = grid1.length ∧
     (calculate_green_view_rate grid1).vegetation_pixels = countClass grid1 VEGETATION_CLASS_ID ∧
     (calculate_green_view_rate grid1).green_view_rate =
       100 * ((calculate_green_view_rate grid1).vegetation_pixels : Rat) /
         ((calculate_green_view_rate grid1).total_pixels : Rat) ∧
     0 ≤ (calculate_green_view_rate grid1).green_view_rate ∧
     (calculate_green_view_rate grid1).green_view_rate ≤ 100 ∧
     (calculate_green_view_rate grid1).vegetation_pixels ≤
       (calculate_green_view_rate grid1).total_pixels) ∧
    (calculate_green_view_rate grid1).green_view_rate = 25 :=
  ⟨by decide, C1_green_view_rate_exact_and_bounded grid1 (by decide),
   by norm_num [calculate_green_view_rate, countClass, grid1, List.count_replicate,
     VEGETATION_CLASS_ID]⟩

/-! ### C7 -/

theorem sum_map_add_nat (l : List Nat) (f g : Nat → Nat) :
    (l.map fun c => f c + g c).sum = (l.map f).sum + (l.map g).sum := by
  induction l with
  | nil => simp
  | cons x xs ih => simp [ih]; omega

theorem sum_indicator_range (n x : Nat) (h : x < n) :
    ((List.range n).map fun c => if x = c then 1 else 0).sum = 1 := by
  induction n with
  | zero => omega
  | succ k ih =>
    rw [List.range_succ, List.map_append, List.sum_append]
    rcases Nat.lt_or_ge x k with h1 | h1
    · have hne : x ≠ k := by omega
      simp [ih h1, hne]
    · have hx : x = k := by omega
      subst hx
      have hz : ((List.range x).map fun c => if x = c then 1 else 0).sum = 0 := by
        apply List.sum_eq_zero
        intro y hy
        rcases List.mem_map.mp hy with ⟨c, hc, hcy⟩
        have hne : x ≠ c := Nat.ne_of_gt (List.mem_range.mp hc)
        simp [hne] at hcy
        omega
      simp [hz]

theorem sum_count_range (m : SegMap) (n : Nat) (h : ∀ x ∈ m, x < n) :
    ((List.range n).map fun c => countClass m c).sum = m.length := by
  induction m with
  | nil => simp [countClass]
  | cons x xs ih =>
    have hx : x < n := h x (List.mem_cons_self x xs)
    have hxs : ∀ y ∈ xs, y < n := fun y hy => h y (List.mem_cons_of_mem _ hy)
    have hsplit : ((List.range n).map fun c => countClass (x :: xs) c).sum =
        ((List.range n).map fun c => countClass xs c).sum +
          ((List.range n).map fun c => if x = c then 1 else 0).sum := by
      rw [← sum_map_add_nat]
      congr 1
      apply List.map_congr_left
      intro c _
      simp only [countClass, List.count_cons, beq_iff_eq]
    rw [hsplit, ih hxs, sum_indicator_range n x hx]
    simp

theorem dist_pixels_sum_aux (m : SegMap) (total : Nat) (l : List Nat) :
    ((l.filterMap (distEntry m total)).map fun e => e.pixels).sum =
      (l.map fun c => countClass m c).sum := by
  induction l with
  | nil => simp
  | cons c cs ih =>
    rw [List.filterMap_cons]
    rcases hc : distEntry m total c with _ | e
    · have : countClass m c = 0 := by
        by_contra hne
        simp [distEntry, Nat.pos_of_ne_zero hne] at hc
      simp [ih, this]
    · have he : e.pixels = countClass m c := by
        by_cases hpos : 0 < countClass m c
        · simp [distEntry, hpos] at hc
          rw [← hc]
        · simp [distEntry, hpos] at hc
      rw [List.map_cons, List.sum_cons, ih, List.map_cons, List.sum_cons, he]

theorem dist_pct_sum_aux (m : SegMap) (total : Nat) (l : List Nat) :
    ((l.filterMap (distEntry m total)).map fun e => e.percentage).sum =
      (l.map fun c => ((countClass m c : Rat) / (total : Rat)) * 100).sum := by
  induction l with
  | nil => simp
  | cons c cs ih =>
    rw [List.filterMap_cons]
    rcases hc : distEntry m total c with _ | e
    · have : countClass m c = 0 := by
        by_contra hne
        simp [distEntry, Nat.pos_of_ne_zero hne] at hc
      simp [ih, this]
    · have he : e.percentage = ((countClass m c : Rat) / (total : Rat)) * 100 := by
        by_cases hpos : 0 < countClass m c
        · simp [distEntry, hpos] at hc
          rw [← hc]
        · simp [distEntry, hpos] at hc
      simp [ih, he]

theorem sum_pct_cast (m : SegMap) (total : Nat) (l : List Nat) :
    (l.map fun c => ((countClass m c : Rat) / (total : Rat)) * 100).sum =
      (((l.map fun c => countClass m c).sum : Nat) : Rat) / (total : Rat) * 100 := by
  induction l with
  | nil => simp
  | cons c cs ih =>
    simp only [List.map_cons, List.sum_cons, ih]
    push_cast
    ring

/-- C7.  For every nonempty label grid whose cells are valid Cityscapes class
ids, the class breakdown of `calculate_green_view_rate` has an entry exactly
for the class ids occurring in the grid, each entry carries
`percentage = 100 * pixel_count / total_pixel_count` for its own pixel count,
the pixel counts sum to `total_pixel_count`, and the percentages sum to 100
(exactly, over the rationals).  The hypothesis that every cell is below the
class count holds for every grid the segmentation engine produces: labels are
an argmax over the 19 Cityscapes classes. -/
theorem C7_class_breakdown_complete (m : SegMap) (h0 : 0 < m.length)
    (hlt : ∀ x ∈ m, x < CITYSCAPES_CLASSES.length) :
    (∀ c : Nat,
      (∃ e ∈ (calculate_green_view_rate m).class_distribution, e.classId = c) ↔
        0 < countClass m c) ∧
    (∀ e ∈ (calculate_green_view_rate m).class_distribution,
      e.pixels = countClass m e.classId ∧
      e.percentage =
        100 * (e.pixels : Rat) / ((calculate_green_view_rate m).total_pixels : Rat)) ∧
    ((calculate_green_view_rate m).class_distribution.map fun e => e.pixels).sum =
      (calculate_green_view_rate m).total_pixels ∧
    ((calculate_green_view_rate m).class_distribution.map fun e => e.percentage).sum
      = 100 := by
  have hdist : (calculate_green_view_rate m).class_distribution =
      (List.range CITYSCAPES_CLASSES.length).filterMap (distEntry m m.length) := rfl
  have htot : (calculate_green_view_rate m).total_pixels = m.length := rfl
  have hmem : ∀ e, e ∈ (calculate_green_view_rate m).class_distribution →
      e.classId < CITYSCAPES_CLASSES.length ∧ 0 < countClass m e.classId ∧
      e.pixels = countClass m e.classId ∧
      e.percentage = ((countClass m e.classId : Rat) / (m.length : Rat)) * 100 := by
    intro e he
    rw [hdist] at he
    rcases List.mem_filterMap.mp he with ⟨c, hc, hce⟩
    by_cases hpos : 0 < countClass m c
    · simp [distEntry, hpos] at hce
      rw [← hce]
      exact ⟨List.mem_range.mp hc, hpos, rfl, rfl⟩
    · simp [distEntry, hpos] at hce
  refine ⟨?_, ?_, ?_, ?_⟩
  · intro c
    constructor
    · rintro ⟨e, he, hec⟩
      rcases hmem e he with ⟨_, hpos, _, _⟩
      rwa [hec] at hpos
    · intro hpos
      have hcm : c ∈ m := by
        by_contra hnm
        have hz : countClass m c = 0 := by
          simp only [countClass]
          exact List.count_eq_zero_of_not_mem hnm
        omega
      have hcn : c < CITYSCAPES_CLASSES.length := hlt c hcm
      refine ⟨{ classId := c, className := classNameOf c, pixels := countClass m c,
                percentage := ((countClass m c : Rat) / (m.length : Rat)) * 100 },
              ?_, rfl⟩
      rw [hdist]
      apply List.mem_filterMap.mpr
      exact ⟨c, List.mem_range.mpr hcn, by simp [distEntry, hpos]⟩
  · intro e he
    rcases hmem e he with ⟨_, _, hpix, hpct⟩
    refine ⟨hpix, ?_⟩
    rw [hpct, htot, hpix]
    ring
  · rw [hdist, htot, dist_pixels_sum_aux]
    exact sum_count_range m _ hlt
  · rw [hdist, dist_pct_sum_aux, sum_pct_cast, sum_count_range m _ hlt]
    have hlen : ((m.length : Rat)) ≠ 0 := by
      exact_mod_cast Nat.pos_iff_ne_zero.mp h0
    field_simp

/-- Witness for C7 at `grid1` (cells 8 and 0, both valid class ids; the
breakdown has the two entries road 75 % and vegetation 25 %). -/
theorem C7_witness :
    (0 < grid1.length ∧ ∀ x ∈ grid1, x < CITYSCAPES_CLASSES.length) ∧
    (((calculate_green_view_rate grid1).class_distribution.map fun e => e.pixels).sum =
      (calculate_green_view_rate grid1).total_pixels ∧
     ((calculate_green_view_rate grid1).class_distribution.map fun e =>
       e.percentage).sum = 100) ∧
    ((calculate_green_view_rate grid1).class_distribution.map fun e => e.className)
      = ["road", "vegetation"] := by
  have h := C7_class_breakdown_complete grid1 (by decide) (by decide)
  exact ⟨⟨by decide, by decide⟩, ⟨h.2.2.1, h.2.2.2⟩, by decide⟩

/-! ### Batch pipeline characterization -/

/-- Deep-cleanup decision for one enumerated item: some index exactly when
the item was analyzed successfully and `(i + 1) % 5 == 0`. -/
def deepAt (seg : String → Except String SegMap) (ip : Nat × String) : Option Nat :=
  match analyze_image seg ip.2 with
  | .ok _ => if (ip.1 + 1) % 5 == 0 then some ip.1 else none
  | .error _ => none

theorem batch_foldl (seg : String → Except String SegMap) (total : Nat)
    (paths : List String) :
    ∀ (k : Nat) (st : BatchTrace),
      (paths.enumFrom k).foldl (batchStep seg total) st =
        { results := st.results ++ paths.map (mkRecord seg)
          progressCalls := st.progressCalls ++
            ((paths.enumFrom k).map fun ip => (ip.1 + 1, total, mkRecord seg ip.2))
          invoked := st.invoked ++ ((paths.enumFrom k).map fun ip => ip.1)
          deepCleanups := st.deepCleanups ++
            (paths.enumFrom k).filterMap (deepAt seg) } := by
  induction paths with
  | nil => intro k st; simp [List.enumFrom]
  | cons p ps ih =>
    intro k st
    have hcons : (p :: ps).enumFrom k = (k, p) :: ps.enumFrom (k + 1) := rfl
    rw [hcons, List.foldl_cons, ih]
    rcases h : analyze_image seg p with e | r
    · simp [batchStep, mkRecord, deepAt, h]
    · by_cases h5 : (k + 1) % 5 == 0 <;>
        simp [batchStep, mkRecord, deepAt, h, h5]

theorem analyze_batch_results (seg : String → Except String SegMap)
    (paths : List String) :
    (analyze_batch seg paths).results = paths.map (mkRecord seg) := by
  unfold analyze_batch
  rw [show paths.enum = paths.enumFrom 0 from rfl, batch_foldl]
  rfl

theorem analyze_batch_invoked (seg : String → Except String SegMap)
    (paths : List String) :
    (analyze_batch seg paths).invoked = List.range paths.length := by
  unfold analyze_batch
  rw [show paths.enum = paths.enumFrom 0 from rfl, batch_foldl]
  show (paths.enum).map _ = _
  rw [show (fun ip : Nat × String => ip.1) = Prod.fst from rfl]
  exact List.enum_map_fst paths

theorem analyze_batch_deepCleanups (seg : String → Except String SegMap)
    (paths : List String) :
    (analyze_batch seg paths).deepCleanups = paths.enum.filterMap (deepAt seg) := by
  unfold analyze_batch
  rw [show paths.enum = paths.enumFrom 0 from rfl, batch_foldl]
  rfl

theorem analyze_batch_progress_idx (seg : String → Except String SegMap)
    (paths : List String) :
    (analyze_batch seg paths).progressCalls.map (fun c => c.1) =
      (List.range paths.length).map (· + 1) := by
  unfold analyze_batch
  rw [show paths.enum = paths.enumFrom 0 from rfl, batch_foldl]
  show (List.map _ ([] ++ _)) = _
  rw [List.nil_append, List.map_map, ← List.enum_map_fst paths, List.map_map]
  rfl

theorem mkRecord_source (seg : String → Except String SegMap) (p : String) :
    (mkRecord seg p).source = p := by
  rcases h : seg p with e | sm <;> simp [mkRecord, analyze_image, h, Record.source]

/-! ### C5 -/

/-- C5.  For every input list of image paths, `analyze_batch` returns one
record per input, in input order, whose source-path fields
(`original_image_path`) equal the input list, failed items included in their
original position. -/
theorem C5_batch_preserves_order (seg : String → Except String SegMap)
    (paths : List String) :
    (analyze_batch seg paths).results.map Record.source = paths ∧
    (analyze_batch seg paths).results.length = paths.length := by
  rw [analyze_batch_results, List.map_map]
  constructor
  · have hcomp : Record.source ∘ mkRecord seg = id := by
      funext p
      simp [Function.comp, mkRecord_source]
    rw [hcomp, List.map_id]
  · simp

/-! ### C4 -/

/-- True exactly when analyzing the path raises (the segmentation call
fails). -/
def segFails (seg : String → Except String SegMap) (p : String) : Bool :=
  match seg p with
  | .error _ => true
  | .ok _ => false

theorem countP_eq_one_of_unique {α : Type} (l : List α) (p : α → Bool) :
    ∀ (i : Nat) (hi : i < l.length), p (l.get ⟨i, hi⟩) = true →
      (∀ (j : Nat) (hj : j < l.length), j ≠ i → p (l.get ⟨j, hj⟩) = false) →
      l.countP p = 1 := by
  induction l with
  | nil => intro i hi; simp at hi
  | cons x xs ih =>
    intro i hi hp hother
    cases i with
    | zero =>
      have hx : p x = true := hp
      have hxs : xs.countP p = 0 := by
        rw [List.countP_eq_zero]
        intro a ha
        rcases List.mem_iff_get.mp ha with ⟨⟨j, hj⟩, rfl⟩
        have hj2 : j + 1 < (x :: xs).length := by simpa using Nat.succ_lt_succ hj
        have := hother (j + 1) hj2 (by omega)
        simpa using this
      simp [List.countP_cons, hx, hxs]
    | succ j =>
      have hx : p x = false := by
        have := hother 0 (by simp) (by omega)
        simpa using this
      have hxs : xs.countP p = 1 := by
        have hj : j < xs.length := by simpa using hi
        apply ih j hj
        · simpa using hp
        · intro j2 hj2 hne
          have hj2s : j2 + 1 < (x :: xs).length := by simpa using Nat.succ_lt_succ hj2
          have := hother (j2 + 1) hj2s (by omega)
          simpa using this
      simp [List.countP_cons, hx, hxs]

theorem countP_bnot {α : Type} (l : List α) (p : α → Bool) :
    l.countP (fun a => !p a) = l.length - l.countP p := by
  induction l with
  | nil => simp
  | cons x xs ih =>
    have hle := List.countP_le_length p (l := xs)
    cases hx : p x
    · simp [List.countP_cons, hx, ih]
      omega
    · simp [List.countP_cons, hx, ih]

/-- C4.  For every path list in which analyzing exactly one item raises and
every other item succeeds, `analyze_batch` returns one record per input with
exactly one error record and all others success records; the error record
sits at the position of the failed item and carries the raised reason with
`green_view_rate` 0.  The loop is total: no exception escapes it. -/
theorem C4_single_failure_never_aborts (seg : String → Except String SegMap)
    (paths : List String) (i : Nat) (e : String)
    (hi : i < paths.length)
    (hfail : seg paths[i] = .error e)
    (hok : ∀ (j : Nat) (hj : j < paths.length), j ≠ i →
      segFails seg paths[j] = false) :
    (analyze_batch seg paths).results.length = paths.length ∧
    (analyze_batch seg paths).results.countP Record.isFailure = 1 ∧
    (analyze_batch seg paths).results.countP (fun r => !r.isFailure) =
      paths.length - 1 ∧
    (analyze_batch seg paths).results[i]? =
      some (.failure paths[i] e 0) := by
  rw [analyze_batch_results]
  have hone : paths.countP (fun p => (mkRecord seg p).isFailure) = 1 := by
    apply countP_eq_one_of_unique paths _ i hi
    · simp only [List.get_eq_getElem]
      simp [mkRecord, analyze_image, hfail, Record.isFailure]
    · intro j hj hne
      have hjok := hok j hj hne
      simp only [List.get_eq_getElem]
      rcases hsj : seg paths[j] with e2 | sm2
      · simp [segFails, hsj] at hjok
      · simp [mkRecord, analyze_image, hsj, Record.isFailure]
  refine ⟨by simp, ?_, ?_, ?_⟩
  · rw [List.countP_map]
    exact hone
  · rw [List.countP_map]
    rw [show ((fun r : Record => !r.isFailure) ∘ mkRecord seg) =
      (fun p => !(fun q => (mkRecord seg q).isFailure) p) from rfl]
    rw [countP_bnot paths (fun q => (mkRecord seg q).isFailure), hone]
  · rw [List.getElem?_map, List.getElem?_eq_getElem hi]
    simp [mkRecord, analyze_image, hfail]

/-- Segmentation oracle used by the concrete batch runs below: every path
succeeds with the one-pixel vegetation grid except the path "bad". -/
def seg1 : String → Except String SegMap := fun p =>
  if p = "bad" then .error "cannot read" else .ok [8]

/-- Witness for C4: in the batch ["a", "bad", "c"] only item 1 fails; the
three returned records hold exactly one failure, at position 1, with the
raised reason and rate 0. -/
theorem C4_witness :
    (seg1 "bad" = .error "cannot read" ∧
     ∀ (j : Nat) (hj : j < (["a", "bad", "c"] : List String).length), j ≠ 1 →
       segFails seg1 (["a", "bad", "c"] : List String)[j] = false) ∧
    ((analyze_batch seg1 ["a", "bad", "c"]).results.length = 3 ∧
     (analyze_batch seg1 ["a", "bad", "c"]).results.countP Record.isFailure = 1 ∧
     (analyze_batch seg1 ["a", "bad", "c"]).results.countP
       (fun r => !r.isFailure) = 2 ∧
     (analyze_batch seg1 ["a", "bad", "c"]).results[1]? =
       some (.failure "bad" "cannot read" 0)) := by
  refine ⟨⟨by rfl, by decide⟩, ?_⟩
  exact C4_single_failure_never_aborts seg1 ["a", "bad", "c"] 1 "cannot read"
    (by decide) (by rfl) (by decide)

/-! ### C2 -/

/-- Counterexample to C2 as stated: with two items both analyzable, setting
the cancellation flag after item `k = 1` does not make the run return `k = 1`
records — the worker still processes both items (the segmentation engine is
invoked for index 1, beyond `k - 1`) and the internal record list has 2
entries; only the later progress signal and the final result emission are
suppressed. -/
theorem C2_counterexample :
    (run_analyze_task seg1 ["a", "b"] 1).records.length = 2 ∧
    (run_analyze_task seg1 ["a", "b"] 1).segInvocations = [0, 1] ∧
    (run_analyze_task seg1 ["a", "b"] 1).progressSignals = [1] ∧
    (run_analyze_task seg1 ["a", "b"] 1).resultsEmitted = false := by
  refine ⟨by decide, by decide, by decide, by decide⟩

/-- C2 amended.  Setting the cancellation flag after item `k` does not stop
the batch: `analyze_batch` never reads the flag, so every item is processed
(one segmentation-engine invocation per input index), the internal record
list always has one record per input, and the flag only suppresses the
`progress_updated` signals of the items after `k` and, when `k` is smaller
than the item count, the final `analysis_results_ready`/`task_completed`
emissions. -/
theorem C2_amended_cancellation_does_not_stop_batch
    (seg : String → Except String SegMap) (paths : List String)
    (cancelAfter : Nat) :
    (run_analyze_task seg paths cancelAfter).records.length = paths.length ∧
    (run_analyze_task seg paths cancelAfter).segInvocations =
      List.range paths.length ∧
    (run_analyze_task seg paths cancelAfter).progressSignals =
      ((List.range paths.length).map (· + 1)).filter
        (fun current => decide (current ≤ cancelAfter)) ∧
    (run_analyze_task seg paths cancelAfter).resultsEmitted =
      decide (paths.length ≤ cancelAfter) := by
  refine ⟨?_, ?_, ?_, rfl⟩
  · show (analyze_batch seg paths).results.length = paths.length
    rw [analyze_batch_results, List.length_map]
  · exact analyze_batch_invoked seg paths
  · show ((analyze_batch seg paths).progressCalls.map fun c => c.1).filter _ = _
    rw [analyze_batch_progress_idx]

/-! ### C3 -/

/-- Counterexample to C3 as stated: for a one-item batch whose segmentation
returns the grid `[8]`, the record in the returned batch list still holds
that segmentation map under the key `segmentation_map` — the per-pixel map is
deliberately retained (for the later comprehensive-analysis image), not
released after metric reduction. -/
theorem C3_counterexample :
    ((analyze_batch seg1 ["a"]).results.map Record.segMap) = [some [8]] := by
  decide

/-- C3 amended.  The per-pixel segmentation map of every successfully
analyzed item is retained: `analyze_image` stores it in the result dictionary
(key `segmentation_map`, kept on purpose for the comprehensive-analysis
image), and the corresponding entry of the `analyze_batch` result list
carries the same map.  Only the original image object is released after
reduction. -/
theorem C3_amended_segmentation_map_retained
    (seg : String → Except String SegMap) (p : String) (sm : SegMap)
    (h : seg p = .ok sm) :
    (analyze_image seg p).map (fun r => r.segmentation_map) = .ok (some sm) ∧
    (mkRecord seg p).segMap = some sm := by
  constructor
  · simp [analyze_image, h, Except.map]
  · simp [mkRecord, analyze_image, h, Record.segMap]

/-- Witness for C3 amended at the oracle `seg1` and path "a" (grid `[8]`). -/
theorem C3_amended_witness :
    seg1 "a" = .ok [8] ∧
    ((analyze_image seg1 "a").map (fun r => r.segmentation_map) =
      .ok (some [8]) ∧
     (mkRecord seg1 "a").segMap = some [8]) :=
  ⟨by rfl, C3_amended_segmentation_map_retained seg1 "a" [8] (by rfl)⟩

/-! ### C8 -/

/-- Counterexample to C8 as stated: in a five-item batch whose fifth item
(index 4) fails, no deep resource-reclamation pass runs at all — the
`(i + 1) % 5 == 0` branch sits inside the `try`, so a failed fifth item
skips it, contradicting "after every K-th item regardless of whether that
item succeeded or failed".  (With the same batch and a readable fifth item
the pass does run, after index 4.) -/
theorem C8_counterexample :
    (analyze_batch seg1 ["a", "b", "c", "d", "bad"]).deepCleanups = [] ∧
    (analyze_batch seg1 ["a", "b", "c", "d", "e"]).deepCleanups = [4] := by
  refine ⟨by decide, by decide⟩

/-- C8 amended.  The deep reclamation pass of `analyze_batch` runs after item
`i` exactly when `(i + 1) % 5 == 0` and item `i` was analyzed successfully;
a failed K-th item skips the pass.  (No resident-memory threshold is checked
inside the batch loop: the memory-threshold cleanup of the source lives in
the GUI memory-monitor timer, outside the orchestrator.) -/
theorem C8_amended_deep_cleanup_on_successful_multiples
    (seg : String → Except String SegMap) (paths : List String) (i : Nat) :
    i ∈ (analyze_batch seg paths).deepCleanups ↔
      ∃ h : i < paths.length,
        (i + 1) % 5 = 0 ∧ segFails seg paths[i] = false := by
  rw [analyze_batch_deepCleanups, List.mem_filterMap]
  constructor
  · rintro ⟨ip, hmem, hip⟩
    rcases List.exists_mem_enum.mp ⟨ip, hmem, rfl⟩ with ⟨j, hj, hjp⟩
    rw [hjp] at hip
    rcases hsj : seg paths[j] with e | sm
    · simp [deepAt, analyze_image, hsj] at hip
    · by_cases h5 : (j + 1) % 5 = 0
      · have : i = j := by
          simp [deepAt, analyze_image, hsj, h5] at hip
          omega
        subst this
        exact ⟨hj, h5, by simp [segFails, hsj]⟩
      · simp [deepAt, analyze_image, hsj, h5] at hip
  · rintro ⟨h, h5, hok⟩
    refine ⟨(i, paths[i]), ?_, ?_⟩
    · exact List.mk_mem_enum_iff_getElem?.mpr (List.getElem?_eq_getElem h)
    · rcases hsi : seg paths[i] with e | sm
      · simp [segFails, hsi] at hok
      · simp [deepAt, analyze_image, hsi, h5]

/-! ### C9 -/

/-- C9.  With the forced accelerator preference (device string `cuda`),
`_get_device` falls back to returning "cpu" whenever CUDA is unavailable or
the allocation-plus-operation smoke test raises; it is a total function, so
device selection returns normally in every environment and model loading
never hard-fails solely because the accelerator is unusable. -/
theorem C9_forced_accelerator_falls_back (env : AccelEnv)
    (h : env.cudaAvailable = false ∨ env.smokeTestOk = false) :
    _get_device (some "cuda") env = "cpu" := by
  rcases env with ⟨ca, so⟩
  rcases h with h | h
  · subst h; cases so <;> rfl
  · subst h; cases ca <;> rfl

/-- Witness for C9: CUDA is reported available but the smoke test fails; the
selection still returns "cpu" (and returns "cuda" only when both checks
pass). -/
theorem C9_witness :
    ((⟨true, false⟩ : AccelEnv).cudaAvailable = false ∨
      (⟨true, false⟩ : AccelEnv).smokeTestOk = false) ∧
    _get_device (some "cuda") ⟨true, false⟩ = "cpu" ∧
    _get_device (some "cuda") ⟨false, true⟩ = "cpu" ∧
    _get_device (some "cuda") ⟨true, true⟩ = "cuda" :=
  ⟨Or.inr rfl, C9_forced_accelerator_falls_back ⟨true, false⟩ (Or.inr rfl),
   C9_forced_accelerator_falls_back ⟨false, true⟩ (Or.inl rfl), by decide⟩

/-! ### C6 -/

/-- Row of `results_data` for a successfully analyzed image with the given
rate (no download error, no analysis error). -/
def successRow (r : Rat) : CombinedResult :=
  { longitude := 0, latitude := 0, download_success := true, download_time := "",
    original_image_path := "img", comprehensive_analysis_path := "",
    green_view_rate := r, vegetation_pixels := 0, total_pixels := 0,
    download_error := "", analysis_error := "", file_size_bytes := 0,
    class_columns := [] }

/-- Counterexample to C6 as stated: `calculate_summary_statistics` filters on
`green_view_rate > 0`, not on record success.  A successful record with rate
0 is excluded: alone it produces no rate statistics and no distribution at
all and counts as zero successful analyses; among successful records with
rates [0, 10, 20, 30] the `[0,10)` bucket stays 0 (the claim predicts 1) and
the mean is 20 (the claim predicts 15). -/
theorem C6_counterexample :
    (successRow 0).analysis_error = "" ∧
    calculate_rate_stats [successRow 0] = none ∧
    green_view_distribution [successRow 0] = none ∧
    (calculate_summary_statistics [successRow 0]).successful_analyses_count = 0 ∧
    green_view_distribution
      [successRow 0, successRow 10, successRow 20, successRow 30] =
      some { very_low := 0, low := 1, medium := 1, high := 1, very_high := 0 } ∧
    rateMean (green_rates
      [successRow 0, successRow 10, successRow 20, successRow 30]) = 20 := by
  refine ⟨rfl, ?_, ?_, ?_, ?_, ?_⟩
  · norm_num [calculate_rate_stats, green_rates, successRow, List.filter]
  · norm_num [green_view_distribution, green_rates, successRow, List.filter]
  · norm_num [calculate_summary_statistics, successful_analyses, successRow,
      List.filter]
  · norm_num [green_view_distribution, green_rates, successRow, List.filter]
  · norm_num [rateMean, green_rates, successRow, List.filter]

theorem buckets_partition (l : List Rat) (h : ∀ x ∈ l, 0 < x) :
    (l.filter fun r => decide (0 ≤ r) && decide (r < 10)).length +
    (l.filter fun r => decide (10 ≤ r) && decide (r < 20)).length +
    (l.filter fun r => decide (20 ≤ r) && decide (r < 30)).length +
    (l.filter fun r => decide (30 ≤ r) && decide (r < 40)).length +
    (l.filter fun r => decide (40 ≤ r)).length = l.length := by
  induction l with
  | nil => simp
  | cons x xs ih =>
    have hx : 0 < x := h x (List.mem_cons_self _ _)
    have hxs : ∀ y ∈ xs, 0 < y := fun y hy => h y (List.mem_cons_of_mem _ hy)
    have hrec := ih hxs
    have h0 : (0 : Rat) ≤ x := hx.le
    simp only [List.filter_cons]
    rcases lt_or_ge x 10 with h10 | h10
    · have n10 : ¬ (10 : Rat) ≤ x := not_le.mpr h10
      have n20 : ¬ (20 : Rat) ≤ x := not_le.mpr (h10.trans (by norm_num))
      have n30 : ¬ (30 : Rat) ≤ x := not_le.mpr (h10.trans (by norm_num))
      have n40 : ¬ (40 : Rat) ≤ x := not_le.mpr (h10.trans (by norm_num))
      simp [h0, h10, n10, n20, n30, n40]
      omega
    · rcases lt_or_ge x 20 with h20 | h20
      · have n10 : ¬ x < 10 := not_lt.mpr h10
        have n20 : ¬ (20 : Rat) ≤ x := not_le.mpr h20
        have n30 : ¬ (30 : Rat) ≤ x := not_le.mpr (h20.trans (by norm_num))
        have n40 : ¬ (40 : Rat) ≤ x := not_le.mpr (h20.trans (by norm_num))
        simp [h10, h20, n10, n20, n30, n40]
        omega
      · rcases lt_or_ge x 30 with h30 | h30
        · have n10 : ¬ x < 10 := not_lt.mpr ((by norm_num : (10 : Rat) ≤ 20).trans h20)
          have n20b : (20 : Rat) ≤ x := h20
          have n30b : ¬ (30 : Rat) ≤ x := not_le.mpr h30
          have n40 : ¬ (40 : Rat) ≤ x := not_le.mpr (h30.trans (by norm_num))
          have n20lt : ¬ x < 20 := not_lt.mpr h20
          simp [h30, n10, n20b, n30b, n40, n20lt]
          omega
        · rcases lt_or_ge x 40 with h40 | h40
          · have n10 : ¬ x < 10 := not_lt.mpr ((by norm_num : (10 : Rat) ≤ 30).trans h30)
            have n20lt : ¬ x < 20 := not_lt.mpr ((by norm_num : (20 : Rat) ≤ 30).trans h30)
            have n30lt : ¬ x < 30 := not_lt.mpr h30
            have n40b : ¬ (40 : Rat) ≤ x := not_le.mpr h40
            simp [h40, h30, n10, n20lt, n30lt, n40b]
            omega
          · have n10 : ¬ x < 10 := not_lt.mpr ((by norm_num : (10 : Rat) ≤ 40).trans h40)
            have n20lt : ¬ x < 20 := not_lt.mpr ((by norm_num : (20 : Rat) ≤ 40).trans h40)
            have n30lt : ¬ x < 30 := not_lt.mpr ((by norm_num : (30 : Rat) ≤ 40).trans h40)
            have n40lt : ¬ x < 40 := not_lt.mpr h40
            simp [h40, n10, n20lt, n30lt, n40lt]
            omega

/-- C6 amended.  The summary statistics and the fixed-bucket distribution are
computed over the records with `green_view_rate > 0` — the proxy the code
uses for a
successful analysis — not over all successful records, so a successful record
with rate 0 contributes to neither; over that subset the buckets `[0,10)`,
`[10,20)`, `[20,30)`, `[30,40)`, `[40,∞)` form a partition, and for rates
[10, 20, 30] the statistics are mean 20, median 20, min 10, max 30 (with
quartiles 15 and 25, squared standard deviation 100) and the buckets are
`{[10,20): 1, [20,30): 1, [30,40): 1}`. -/
theorem C6_amended_stats_over_positive_rates :
    (∀ rows : List CombinedResult,
      successful_analyses rows = (green_rates rows).length) ∧
    (∀ rows : List CombinedResult,
      (green_view_distribution rows).map
          (fun d => d.very_low + d.low + d.medium + d.high + d.very_high) =
        (green_view_distribution rows).map (fun _ => (green_rates rows).length)) ∧
    calculate_rate_stats [successRow 10, successRow 20, successRow 30] =
      some { mean := 20, median := 20, std_sq := 100, rate_min := 10,
             rate_max := 30, q25 := 15, q75 := 25 } ∧
    green_view_distribution [successRow 10, successRow 20, successRow 30] =
      some { very_low := 0, low := 1, medium := 1, high := 1, very_high := 0 } ∧
    calculate_rate_stats [successRow 0] = none := by
  refine ⟨?_, ?_, ?_, ?_, ?_⟩
  · intro rows
    simp [successful_analyses, green_rates]
  · intro rows
    unfold green_view_distribution
    by_cases hlen : (green_rates rows).length > 0
    · have hpos : ∀ x ∈ green_rates rows, 0 < x := by
        intro x hx
        rcases List.mem_map.mp hx with ⟨r, hr, hxr⟩
        have := List.of_mem_filter hr
        rw [← hxr]
        simpa using this
      simp only [hlen, if_pos, Option.map_some, Option.some.injEq]
      simpa using buckets_partition (green_rates rows) hpos
    · simp [hlen]
  · norm_num [calculate_rate_stats, green_rates, successRow, List.filter,
      rateMean, rateMedian, rateVariance, rateQuantile, rateMin, rateMax,
      sortRates, List.insertionSort, List.orderedInsert]
  · norm_num [green_view_distribution, green_rates, successRow, List.filter]
  · norm_num [calculate_rate_stats, green_rates, successRow, List.filter]

/-! ### C10 -/

theorem add_batch_aux (cpath : String → Record → String)
    (dls : List DownloadResult) (ars : List Record) :
    ∀ (n : Nat), n ≤ min dls.length ars.length →
      ∀ (st : List CombinedResult),
      (List.range n).foldl
        (fun acc i => acc ++ [add_result cpath dls[i]! ars[i]!]) st =
        st ++ ((dls.zip ars).take n).map fun pr => add_result cpath pr.1 pr.2 := by
  intro n
  induction n with
  | zero => intro _ st; simp
  | succ k ih =>
    intro hk st
    rw [List.range_succ, List.foldl_append, ih (by omega) st]
    simp only [List.foldl_cons, List.foldl_nil]
    have hkd : k < dls.length := by omega
    have hka : k < ars.length := by omega
    have hkz : k < (dls.zip ars).length := by
      rw [List.length_zip]
      omega
    rw [List.take_succ, List.getElem?_eq_getElem hkz]
    rw [show (dls.zip ars)[k] = (dls[k], ars[k]) from List.getElem_zip]
    rw [getElem!_pos dls k hkd, getElem!_pos ars k hka]
    simp

/-- C10.  `add_batch_results` appends exactly
`min(len(download_results), len(analysis_results))` combined rows, pairing
the two lists positionally in order and silently discarding the trailing
surplus of the longer list. -/
theorem C10_add_batch_results_pairs_positionally
    (cpath : String → Record → String) (results_data : List CombinedResult)
    (download_results : List DownloadResult) (analysis_results : List Record) :
    add_batch_results cpath results_data download_results analysis_results =
      results_data ++ (download_results.zip analysis_results).map
        (fun pr => add_result cpath pr.1 pr.2) ∧
    (add_batch_results cpath results_data download_results
        analysis_results).length =
      results_data.length +
        min download_results.length analysis_results.length := by
  have hlen : (download_results.zip analysis_results).length =
      min download_results.length analysis_results.length := by
    rw [List.length_zip]
  have h := add_batch_aux cpath download_results analysis_results
    (min download_results.length analysis_results.length) (le_refl _)
    results_data
  have htake : (download_results.zip analysis_results).take
      (min download_results.length analysis_results.length) =
      download_results.zip analysis_results := by
    rw [← hlen]
    exact List.take_length _
  constructor
  · unfold add_batch_results
    rw [h, htake]
  · unfold add_batch_results
    rw [h, htake]
    simp [hlen]

end Cityscape
